import Mathlib

/-!
Verification of the node-web-crawler repository (src/src/app/crawler.ts).

The development shallowly embeds the crawler's core: URL canonicalization
(cleanURL), the visited-set / depth-gated traversal (readResourceContent,
scanPage) and the crawl driver (run).  External collaborators (axios fetch,
cheerio selector queries) are modelled as oracles supplied in a CrawlEnv.
Node's legacy url.parse, which cleanURL calls, is modelled faithfully for
the fragment of its behaviour the crawler exercises: scheme extraction and
lowercasing, "//" authority handling, userinfo splitting at the last "@",
hostname lowercasing, trailing-digit port extraction, and pathname /
query / fragment splitting, and the "//user@host" host detection for
protocol-less input (its hostPattern regex applies when the
simple-path fast path is defeated by a "#" in the input).  Not
modelled: whitespace trimming, percent auto-escaping, hostname-label
validation / truncation, and punycode.
-/

namespace NodeWebCrawler

/-! ## Character classes (ASCII, via code points, mirroring the JS regexes) -/

/-- ASCII lowercasing of a single character, as String.prototype.toLowerCase
acts on the basic latin letters that can occur in schemes and hostnames. -/
def lowerChar (ch : Char) : Char :=
  if 65 ≤ ch.toNat ∧ ch.toNat ≤ 90 then Char.ofNat (ch.toNat + 32) else ch

/-- Characters allowed in a scheme by Node's protocolPattern
regex, ASCII letters, digits, and the three chars dot plus hyphen. -/
def schemeChar (ch : Char) : Bool :=
  (65 ≤ ch.toNat && ch.toNat ≤ 90) || (97 ≤ ch.toNat && ch.toNat ≤ 122) ||
  (48 ≤ ch.toNat && ch.toNat ≤ 57) || ch == '.' || ch == '+' || ch == '-'

/-- ASCII digit test via the code point. -/
def digitChar (ch : Char) : Bool := 48 ≤ ch.toNat && ch.toNat ≤ 57

/-- Characters ending the authority section of a URL (before the fragment
has been split off): the path or query delimiter. -/
def hostEndChar (ch : Char) : Bool := ch == '/' || ch == '?'

/-! ## Model of Node's legacy url.parse -/

/-- Result of url.parse restricted to the four fields cleanURL reads.
A value of none models a null field. -/
structure UrlInfo where
  protocol : Option (List Char)
  hostname : Option (List Char)
  port : Option (List Char)
  pathname : Option (List Char)
deriving DecidableEq

/-- Lowercase a character list (hostname / scheme normalization). -/
def lower (l : List Char) : List Char := l.map lowerChar

/-- Pathname extraction: everything up to the query delimiter; an empty
pathname is null.  (Legacy url.parse reports "/" for a slashed protocol
with a host and empty path; cleanURL drops both "" and "/", so the two
conventions are indistinguishable to the crawler and we use null.) -/
def parsePath (l : List Char) : Option (List Char) :=
  let p := l.takeWhile (fun ch => ch != '?')
  if p.isEmpty then none else some p

/-- Text after the last "@", dropping the userinfo (auth) part; the whole
input when no "@" occurs. -/
def afterLastAt (l : List Char) : List Char :=
  (l.reverse.takeWhile (fun ch => ch != '@')).reverse

/-- Split host:port as legacy parseHost does with its portPattern regex,
a run of digits at the end preceded by a colon is the port (removed from
the hostname even when the digit run is empty, in which case port stays
null). -/
def splitPort (hostport : List Char) : List Char × Option (List Char) :=
  let ds := hostport.reverse.takeWhile digitChar
  let pre := hostport.reverse.dropWhile digitChar
  match pre with
  | ':' :: pre2 => (pre2.reverse, if ds.isEmpty then none else some ds.reverse)
  | _ => (hostport, none)

/-- Node's hostPattern regex: two slashes, a nonempty run of characters
other than "@" and "/", an "@", and another nonempty such run.  A
protocol-less input matching it has its host parsed (with null
protocol), provided the simple-path fast path did not already return
(that fast path handles exactly the "#"-free inputs). -/
def hostPattern (l : List Char) : Bool :=
  match l with
  | '/' :: '/' :: rest =>
    match rest.dropWhile (fun ch => ch != '@' && ch != '/') with
    | '@' :: rest2 =>
      !(rest.takeWhile (fun ch => ch != '@' && ch != '/')).isEmpty &&
      !(rest2.takeWhile (fun ch => ch != '@' && ch != '/')).isEmpty
    | _ => false
  | _ => false

/-- Parse the authority and what follows it: hostname (lowercased), port,
and pathname.  The protocol is passed through (null in the
protocol-less "//user@host" case). -/
def parseAuthority (proto : Option (List Char)) (l : List Char) : UrlInfo :=
  let hostpart := l.takeWhile (fun ch => !hostEndChar ch)
  let rest := l.dropWhile (fun ch => !hostEndChar ch)
  let hp := splitPort (afterLastAt hostpart)
  { protocol := proto, hostname := some (lower hp.1), port := hp.2,
    pathname := parsePath rest }

/-- Protocols that Node treats as slashed (host expected after "//"). -/
def slashedProtocols : List (List Char) :=
  ["http:".data, "https:".data, "ftp:".data, "gopher:".data,
   "file:".data, "ws:".data, "wss:".data]

/-- Model of legacy url.parse on a character list.  The fragment is cut at
the first "#"; a scheme is a nonempty run of schemeChars followed by ":";
a scheme followed by "//" (or a non-slashed, non-hostless scheme) has its
authority parsed; otherwise everything up to the query is the pathname. -/
def parseL (l : List Char) : UrlInfo :=
  let m := l.takeWhile (fun ch => ch != '#')
  let sch := m.takeWhile schemeChar
  match m.dropWhile schemeChar with
  | ':' :: r =>
    if sch.isEmpty then
      { protocol := none, hostname := none, port := none, pathname := parsePath m }
    else
      let proto := lower sch ++ [':']
      if proto = "javascript:".data then
        { protocol := some proto, hostname := none, port := none, pathname := parsePath r }
      else
        match r with
        | '/' :: '/' :: r2 => parseAuthority (some proto) r2
        | _ =>
          if proto ∈ slashedProtocols then
            { protocol := some proto, hostname := none, port := none, pathname := parsePath r }
          else
            parseAuthority (some proto) r
  | _ =>
    if hostPattern l && l.any (fun ch => ch == '#') then
      parseAuthority none (m.drop 2)
    else
      { protocol := none, hostname := none, port := none, pathname := parsePath m }

/-- CrawlerOptions interface: maxDepth and includeAssets. -/
structure CrawlerOptions where
  maxDepth : Nat
  includeAssets : Bool
deriving DecidableEq

/-- Defaults declared in the Crawler class: maxDepth 10, includeAssets false. -/
def defaultOptions : CrawlerOptions := { maxDepth := 10, includeAssets := false }

/-- CrawlerResources interface: a selector / attribute pair.  The source
field name attribute is a keyword here, so it is spelled attrName. -/
structure CrawlerResources where
  selector : String
  attrName : String
deriving DecidableEq

/-- The anchor rule used for link traversal. -/
def LINK_RESOURCE : CrawlerResources := { selector := "a", attrName := "href" }

/-- The three asset rules used when includeAssets is true. -/
def ASSET_RESOURCES : List CrawlerResources :=
  [{ selector := "img", attrName := "src" },
   { selector := "script", attrName := "src" },
   { selector := "link[rel=\"stylesheet\"]", attrName := "href" }]

/-- Immutable per-crawler data set up by the constructor. -/
structure Crawler where
  URL : String
  HOSTNAME : List Char
  PROTOCOL : Option (List Char)
  PORT : Option (List Char)
  CRAWLER_OPTIONS : CrawlerOptions
deriving DecidableEq

/-- The constructor: parse the seed, fail (throw) when hostname is null,
record hostname / protocol / port, and merge option overrides over the
defaults.  Note the check is against null only: an empty-string hostname
is accepted, exactly as in the source. -/
def Crawler.build (path : String) (options : Option CrawlerOptions) : Option Crawler :=
  let pathInfo := parseL path.data
  match pathInfo.hostname with
  | none => none
  | some h =>
    some { URL := path, HOSTNAME := h, PROTOCOL := pathInfo.protocol,
           PORT := pathInfo.port,
           CRAWLER_OPTIONS := options.getD defaultOptions }

/-! ## cleanURL -/

/-- JS template-literal rendering of a possibly-null string (null prints
as the text "null"). -/
def optStr : Option (List Char) → List Char
  | none => "null".data
  | some l => l

/-- The port fragment of cleanURL's output: the JS expression
port ? port : '' (null and the empty string are falsy). -/
def portStr : Option (List Char) → List Char
  | none => []
  | some p => if p.isEmpty then [] else p

/-- The path fragment of cleanURL's output: the JS conditional keeps the
pathname only when it is truthy and not exactly "/". -/
def pathStr : Option (List Char) → List Char
  | none => []
  | some p => if p.isEmpty || p = "/".data then [] else p

/-- JS truthiness of a nullable string. -/
def truthy : Option (List Char) → Bool
  | none => false
  | some l => !l.isEmpty

/-- cleanURL from crawler.ts: undefined on a falsy input; otherwise parse
the candidate, take its own protocol / hostname / port when its hostname
is truthy and the base authority otherwise, and render
protocol + "//" + hostname + port + path, where the path is dropped when
empty or exactly "/". -/
def cleanURL (c : Crawler) (path : Option String) : Option String :=
  match path with
  | none => none
  | some s =>
    if s = "" then none
    else
      let pathInfo := parseL s.data
      let auth : Option (List Char) × List Char × Option (List Char) :=
        if truthy pathInfo.hostname then
          (pathInfo.protocol, optStr pathInfo.hostname, pathInfo.port)
        else
          (c.PROTOCOL, c.HOSTNAME, c.PORT)
      some (String.mk (optStr auth.1 ++ "//".data ++ auth.2.1 ++
        portStr auth.2.2 ++ pathStr pathInfo.pathname))

/-! ## Predicates about canonicalization inputs -/

/-- Page contents are abstract identifiers resolved by the environment. -/
abbrev Content := Nat

/-- A fetch response as the crawler observes it: status code, the numeric
coercion of the content-length header (none models an absent header or a
header on which the JS unary plus yields NaN), the page content, and
Buffer.byteLength of the body. -/
structure Response where
  status : Int
  contentLength : Option Int
  data : Content
  byteLength : Nat
deriving DecidableEq

/-- One DownloadRecord: CrawlerDownloadInfo from the model directory. -/
structure CrawlerDownloadInfo where
  resource : String
  size : Int
deriving DecidableEq

/-- The external collaborators: axios (fetch, none models a request error,
which the code's catch turns into a status-less value failing
isSuccessResponse) and cheerio (attrs lists, for a page and a resource
rule, the matched elements' attribute values in document order, none for
an element lacking the attribute). -/
structure CrawlEnv where
  fetch : String → Option Response
  attrs : Content → CrawlerResources → List (Option String)

/-- isSuccessResponse from crawler.ts: response && status in [200, 300). -/
def isSuccessResponse : Option Response → Bool
  | none => false
  | some r => (200 ≤ r.status && r.status < 300 : Bool)

/-- The size stored in a DownloadRecord:
+headers['content-length'] || Buffer.byteLength(content) || 0, with JS
falsiness (NaN and 0 fall through to the next alternative). -/
def recordSize (r : Response) : Int :=
  match r.contentLength with
  | some n => if n ≠ 0 then n else (if r.byteLength ≠ 0 then (r.byteLength : Int) else 0)
  | none => if r.byteLength ≠ 0 then (r.byteLength : Int) else 0

/-- The crawl's mutable state: currentDepth, scannedHosts and
scannedResourceInfo are the instance fields of the class; fetchLog is a
ghost field recording every URL passed to fetchPageContent, in order, so
that fetch-count properties can be stated.  It influences nothing. -/
structure CrawlState where
  currentDepth : Nat
  scannedHosts : List String
  scannedResourceInfo : List CrawlerDownloadInfo
  fetchLog : List String
deriving DecidableEq

/-- The body of one iteration of the selector loop in readResourceContent
(crawler.ts lines 181 to 213), minus the depth-gate break which the caller
handles: skip a raw "/" value, canonicalize, drop known or undefined
hosts, otherwise admit the URL, bump the depth when incrDepth is set,
fetch, and on success record the download and recurse through the given
continuation when the depth condition allows. -/
def procStep (env : CrawlEnv) (c : Crawler) (recur : Content → CrawlState → CrawlState)
    (incrDepth : Bool) (p : Option String) (st : CrawlState) : CrawlState :=
  if p = some "/" then st
  else
    match cleanURL c p with
    | none => st
    | some currentHost =>
      if currentHost ∈ st.scannedHosts then st
      else
        let st1 : CrawlState :=
          { st with scannedHosts := st.scannedHosts ++ [currentHost],
                    currentDepth := st.currentDepth + (if incrDepth then 1 else 0) }
        let st2 : CrawlState := { st1 with fetchLog := st1.fetchLog ++ [currentHost] }
        match env.fetch currentHost with
        | none => st2
        | some resp =>
          if isSuccessResponse (some resp) then
            let st3 : CrawlState :=
              { st2 with scannedResourceInfo :=
                  st2.scannedResourceInfo ++ [{ resource := currentHost, size := recordSize resp }] }
            if st3.currentDepth = 0 ∨ st3.currentDepth ≤ c.CRAWLER_OPTIONS.maxDepth then
              recur resp.data st3
            else st3
          else st2

/-- The selector loop of readResourceContent: before each candidate the
depth gate (currentDepth === maxDepth) aborts the remaining candidates of
this rule. -/
def procPaths (env : CrawlEnv) (c : Crawler) (recur : Content → CrawlState → CrawlState)
    (incrDepth : Bool) : List (Option String) → CrawlState → CrawlState
  | [], st => st
  | p :: rest, st =>
    if st.currentDepth = c.CRAWLER_OPTIONS.maxDepth then st
    else procPaths env c recur incrDepth rest (procStep env c recur incrDepth p st)

/-- readResourceContent: iterate the resource rules, querying the page for
each rule's selector matches and running the selector loop.  (The source's
guard on an empty selector list is a no-op and is absorbed by the empty
case of the loop.) -/
def readResourceContent (env : CrawlEnv) (c : Crawler)
    (recur : Content → CrawlState → CrawlState) (content : Content) :
    List CrawlerResources → Bool → CrawlState → CrawlState
  | [], _, st => st
  | r :: rs, incrDepth, st =>
    readResourceContent env c recur content rs incrDepth
      (procPaths env c recur incrDepth (env.attrs content r) st)

/-- scanPage: process the asset rules first when includeAssets is true
(without depth increments), then the link rule (with depth increments).
Recursive descent through fetched pages is fuelled; exhausted fuel cuts
the recursion off, which is sound for the invariant-style properties
proved here since the source recursion has no termination guarantee of
its own. -/
def scanPage (env : CrawlEnv) (c : Crawler) : Nat → Content → CrawlState → CrawlState
  | 0, _, st => st
  | Nat.succ fuel, content, st =>
    let st1 :=
      if c.CRAWLER_OPTIONS.includeAssets then
        readResourceContent env c (scanPage env c fuel) content ASSET_RESOURCES false st
      else st
    readResourceContent env c (scanPage env c fuel) content [LINK_RESOURCE] true st1

/-- The crawl's initial mutable state. -/
def initState : CrawlState :=
  { currentDepth := 0, scannedHosts := [], scannedResourceInfo := [], fetchLog := [] }

/-- run from crawler.ts: fetch the seed; on a success response scan it and
resolve with scannedResourceInfo.  On any other outcome the promise is
never resolved, modelled by a none result; the second component is the
final crawl state either way. -/
def run (env : CrawlEnv) (c : Crawler) (fuel : Nat) :
    Option (List CrawlerDownloadInfo) × CrawlState :=
  let st0 : CrawlState := { initState with fetchLog := [c.URL] }
  match env.fetch c.URL with
  | none => (none, st0)
  | some r =>
    if isSuccessResponse (some r) then
      let st1 := scanPage env c fuel r.data st0
      (some st1.scannedResourceInfo, st1)
    else (none, st0)

/-- The state run starts the scan from. -/
def runStart (c : Crawler) : CrawlState := { initState with fetchLog := [c.URL] }

/-! ## Concrete crawlers and environments used in counterexamples and
witnesses -/

/-- A crawler built from the seed "http://h.com" with default options. -/
def cW : Crawler :=
  { URL := "http://h.com", HOSTNAME := "h.com".data, PROTOCOL := some "http:".data,
    PORT := none, CRAWLER_OPTIONS := defaultOptions }

/-- A crawler built from the seed "http://h.com" with maxDepth 0 and
includeAssets true. -/
def cA : Crawler :=
  { URL := "http://h.com", HOSTNAME := "h.com".data, PROTOCOL := some "http:".data,
    PORT := none, CRAWLER_OPTIONS := { maxDepth := 0, includeAssets := true } }

/-- A crawler built from the seed "http://h.com/a" with default options. -/
def cB : Crawler :=
  { URL := "http://h.com/a", HOSTNAME := "h.com".data, PROTOCOL := some "http:".data,
    PORT := none, CRAWLER_OPTIONS := defaultOptions }

/-- Environment for the maxDepth-0 scenario: the seed page (content 0)
carries one img asset whose fetch would succeed. -/
def envA : CrawlEnv :=
  { fetch := fun s =>
      if s = "http://h.com" then
        some { status := 200, contentLength := none, data := 0, byteLength := 10 }
      else if s = "http://h.com/logo.png" then
        some { status := 200, contentLength := some 1024, data := 1, byteLength := 4 }
      else none,
    attrs := fun content r =>
      if content = 0 ∧ r = { selector := "img", attrName := "src" } then
        [some "/logo.png"]
      else [] }

/-- Environment for the seed-link-back scenario: the seed page (content 0)
carries one anchor whose href canonicalizes back to the seed URL. -/
def envB : CrawlEnv :=
  { fetch := fun s =>
      if s = "http://h.com/a" then
        some { status := 200, contentLength := none, data := 0, byteLength := 10 }
      else none,
    attrs := fun content r =>
      if content = 0 ∧ r = LINK_RESOURCE then [some "/a"] else [] }

/-- Environment for the content-length-zero scenario: the seed page links
to a page answering 200 with a content-length header of "0" and a
five-byte body. -/
def envD : CrawlEnv :=
  { fetch := fun s =>
      if s = "http://h.com" then
        some { status := 200, contentLength := none, data := 0, byteLength := 10 }
      else if s = "http://h.com/x" then
        some { status := 200, contentLength := some 0, data := 1, byteLength := 5 }
      else none,
    attrs := fun content r =>
      if content = 0 ∧ r = LINK_RESOURCE then [some "/x"] else [] }

/-- Environment whose seed fetch returns 404. -/
def envF : CrawlEnv :=
  { fetch := fun s =>
      if s = "http://h.com" then
        some { status := 404, contentLength := none, data := 0, byteLength := 0 }
      else none,
    attrs := fun _ _ => [] }

/-- Environment whose seed fetch errors at the network level. -/
def envFerr : CrawlEnv :=
  { fetch := fun _ => none, attrs := fun _ _ => [] }

/-- Environment for the failed-admitted-fetch scenario: the page at
"http://h.com/bad" answers 404. -/
def envE : CrawlEnv :=
  { fetch := fun s =>
      if s = "http://h.com/bad" then
        some { status := 404, contentLength := none, data := 2, byteLength := 0 }
      else none,
    attrs := fun _ _ => [] }

/-! ## State-evolution machinery

The traversal only ever appends to scannedHosts, scannedResourceInfo and
fetchLog, appends to the fetch log exactly what it appends to the visited
set, and maintains the dedup invariants.  These facts are packaged in
Evolves and proved for every layer of the traversal. -/

/-- Dedup invariants of a crawl state: the visited set holds no
duplicates, neither do the recorded resources, and every recorded
resource has been admitted. -/
def Inv (st : CrawlState) : Prop :=
  st.scannedHosts.Nodup ∧
  (st.scannedResourceInfo.map CrawlerDownloadInfo.resource).Nodup ∧
  ∀ r ∈ st.scannedResourceInfo, r.resource ∈ st.scannedHosts

/-- How one traversal step (or any number of them) may transform the
state: the visited set and the fetch log grow by one common suffix, the
records grow by a suffix, the dedup invariants are preserved, and the
depth stays within maxDepth. -/
def Evolves (c : Crawler) (st st2 : CrawlState) : Prop :=
  (∃ δ, st2.scannedHosts = st.scannedHosts ++ δ ∧ st2.fetchLog = st.fetchLog ++ δ) ∧
  (∃ ρ, st2.scannedResourceInfo = st.scannedResourceInfo ++ ρ) ∧
  (Inv st → Inv st2) ∧
  (st.currentDepth ≤ c.CRAWLER_OPTIONS.maxDepth →
    st2.currentDepth ≤ c.CRAWLER_OPTIONS.maxDepth)

theorem evolves_rfl (c : Crawler) (st : CrawlState) : Evolves c st st :=
  ⟨⟨[], by simp, by simp⟩, ⟨[], by simp⟩, id, id⟩

theorem evolves_trans {c : Crawler} {st1 st2 st3 : CrawlState}
    (h1 : Evolves c st1 st2) (h2 : Evolves c st2 st3) : Evolves c st1 st3 := by
  obtain ⟨⟨d1, hh1, hl1⟩, ⟨r1, hr1⟩, hi1, hd1⟩ := h1
  obtain ⟨⟨d2, hh2, hl2⟩, ⟨r2, hr2⟩, hi2, hd2⟩ := h2
  exact ⟨⟨d1 ++ d2, by simp [hh2, hh1], by simp [hl2, hl1]⟩,
    ⟨r1 ++ r2, by simp [hr2, hr1]⟩, fun h => hi2 (hi1 h), fun h => hd2 (hd1 h)⟩

theorem admit2_evolves (c : Crawler) (u : String) (st : CrawlState) (k : Nat)
    (hk : k ≤ 1) (hmem : u ∉ st.scannedHosts)
    (hg : st.currentDepth ≠ c.CRAWLER_OPTIONS.maxDepth) :
    Evolves c st
      { st with scannedHosts := st.scannedHosts ++ [u],
                currentDepth := st.currentDepth + k,
                fetchLog := st.fetchLog ++ [u] } := by
  refine ⟨⟨[u], by simp, by simp⟩, ⟨[], by simp⟩, ?_, ?_⟩
  · rintro ⟨h1, h2, h3⟩
    refine ⟨by simp [List.nodup_append, h1, hmem], h2, ?_⟩
    intro r hr
    exact List.mem_append_left _ (h3 r hr)
  · intro hle
    have : st.currentDepth < c.CRAWLER_OPTIONS.maxDepth := Nat.lt_of_le_of_ne hle hg
    simp only [CrawlState.currentDepth]
    omega

theorem admit3_evolves (c : Crawler) (u : String) (st : CrawlState) (k : Nat)
    (hk : k ≤ 1) (z : Int) (hmem : u ∉ st.scannedHosts)
    (hg : st.currentDepth ≠ c.CRAWLER_OPTIONS.maxDepth) :
    Evolves c st
      { st with scannedHosts := st.scannedHosts ++ [u],
                currentDepth := st.currentDepth + k,
                fetchLog := st.fetchLog ++ [u],
                scannedResourceInfo := st.scannedResourceInfo ++
                  [{ resource := u, size := z }] } := by
  refine ⟨⟨[u], by simp, by simp⟩, ⟨[{ resource := u, size := z }], by simp⟩, ?_, ?_⟩
  · rintro ⟨h1, h2, h3⟩
    refine ⟨by simp [List.nodup_append, h1, hmem], ?_, ?_⟩
    · have hu : u ∉ st.scannedResourceInfo.map CrawlerDownloadInfo.resource := by
        intro hc
        obtain ⟨r, hr, hru⟩ := List.mem_map.mp hc
        exact hmem (hru ▸ h3 r hr)
      simp [List.nodup_append, h2, hu]
    · intro r hr
      rcases List.mem_append.mp hr with h | h
      · exact List.mem_append_left _ (h3 r h)
      · simp at h
        simp [h]
  · intro hle
    have : st.currentDepth < c.CRAWLER_OPTIONS.maxDepth := Nat.lt_of_le_of_ne hle hg
    simp only [CrawlState.currentDepth]
    omega

theorem procStep_evolves (env : CrawlEnv) (c : Crawler)
    (recur : Content → CrawlState → CrawlState)
    (hrec : ∀ content st, Evolves c st (recur content st))
    (incrDepth : Bool) (p : Option String) (st : CrawlState)
    (hg : st.currentDepth ≠ c.CRAWLER_OPTIONS.maxDepth) :
    Evolves c st (procStep env c recur incrDepth p st) := by
  by_cases h1 : p = some "/"
  · simp only [procStep, if_pos h1]
    exact evolves_rfl c st
  · cases hcu : cleanURL c p with
    | none =>
      simp only [procStep, if_neg h1, hcu]
      exact evolves_rfl c st
    | some currentHost =>
      by_cases hmem : currentHost ∈ st.scannedHosts
      · simp only [procStep, if_neg h1, hcu, if_pos hmem]
        exact evolves_rfl c st
      · cases hf : env.fetch currentHost with
        | none =>
          simp only [procStep, if_neg h1, hcu, if_neg hmem, hf]
          split
          · exact admit2_evolves c currentHost st 1 (by omega) hmem hg
          · exact admit2_evolves c currentHost st 0 (by omega) hmem hg
        | some resp =>
          by_cases hs : isSuccessResponse (some resp) = true
          · simp only [procStep, if_neg h1, hcu, if_neg hmem, hf, if_pos hs]
            split <;> split
            · exact evolves_trans
                (admit3_evolves c currentHost st 1 (by omega) (recordSize resp) hmem hg)
                (hrec _ _)
            · exact admit3_evolves c currentHost st 1 (by omega) (recordSize resp) hmem hg
            · exact evolves_trans
                (admit3_evolves c currentHost st 0 (by omega) (recordSize resp) hmem hg)
                (hrec _ _)
            · exact admit3_evolves c currentHost st 0 (by omega) (recordSize resp) hmem hg
          · simp only [procStep, if_neg h1, hcu, if_neg hmem, hf, if_neg hs]
            split
            · exact admit2_evolves c currentHost st 1 (by omega) hmem hg
            · exact admit2_evolves c currentHost st 0 (by omega) hmem hg

theorem procPaths_evolves (env : CrawlEnv) (c : Crawler)
    (recur : Content → CrawlState → CrawlState)
    (hrec : ∀ content st, Evolves c st (recur content st))
    (incrDepth : Bool) (ps : List (Option String)) (st : CrawlState) :
    Evolves c st (procPaths env c recur incrDepth ps st) := by
  induction ps generalizing st with
  | nil => exact evolves_rfl c st
  | cons p rest ih =>
    rw [procPaths]
    split
    · exact evolves_rfl c st
    · next hg =>
      exact evolves_trans (procStep_evolves env c recur hrec incrDepth p st hg) (ih _)

theorem readResourceContent_evolves (env : CrawlEnv) (c : Crawler)
    (recur : Content → CrawlState → CrawlState)
    (hrec : ∀ content st, Evolves c st (recur content st))
    (content : Content) (resources : List CrawlerResources) (incrDepth : Bool)
    (st : CrawlState) :
    Evolves c st (readResourceContent env c recur content resources incrDepth st) := by
  induction resources generalizing st with
  | nil => exact evolves_rfl c st
  | cons r rs ih =>
    rw [readResourceContent]
    exact evolves_trans (procPaths_evolves env c recur hrec incrDepth _ st) (ih _)

theorem scanPage_evolves (env : CrawlEnv) (c : Crawler) (fuel : Nat)
    (content : Content) (st : CrawlState) :
    Evolves c st (scanPage env c fuel content st) := by
  induction fuel generalizing content st with
  | zero => exact evolves_rfl c st
  | succ fuel ih =>
    rw [scanPage]
    refine @evolves_trans c st (if c.CRAWLER_OPTIONS.includeAssets then
        readResourceContent env c (scanPage env c fuel) content ASSET_RESOURCES false st
      else st) _ ?_ ?_
    · split
      · exact readResourceContent_evolves env c _ (fun content st => ih content st) content _ _ st
      · exact evolves_rfl c st
    · exact readResourceContent_evolves env c _ (fun content st => ih content st) content _ _ _

theorem inv_runStart (c : Crawler) : Inv (runStart c) := by
  refine ⟨by simp [runStart, initState], by simp [runStart, initState], ?_⟩
  intro r hr
  simp [runStart, initState] at hr

theorem run_evolves (env : CrawlEnv) (c : Crawler) (fuel : Nat) :
    Evolves c (runStart c) (run env c fuel).2 := by
  rw [run]
  split
  · exact evolves_rfl c _
  · split
    · exact scanPage_evolves env c fuel _ _
    · exact evolves_rfl c _

theorem run_inv (env : CrawlEnv) (c : Crawler) (fuel : Nat) : Inv (run env c fuel).2 :=
  (run_evolves env c fuel).2.2.1 (inv_runStart c)

theorem run_fetchLog (env : CrawlEnv) (c : Crawler) (fuel : Nat) :
    (run env c fuel).2.fetchLog = c.URL :: (run env c fuel).2.scannedHosts := by
  obtain ⟨⟨d, hh, hl⟩, _, _, _⟩ := run_evolves env c fuel
  simp [runStart, initState] at hh hl
  rw [hh, hl]

/-! ## Depth-gate lemmas: a state already at maxDepth is inert -/

theorem procPaths_stuck (env : CrawlEnv) (c : Crawler)
    (recur : Content → CrawlState → CrawlState) (incrDepth : Bool)
    (ps : List (Option String)) (st : CrawlState)
    (h : st.currentDepth = c.CRAWLER_OPTIONS.maxDepth) :
    procPaths env c recur incrDepth ps st = st := by
  cases ps <;> simp [procPaths, h]

theorem readResourceContent_stuck (env : CrawlEnv) (c : Crawler)
    (recur : Content → CrawlState → CrawlState) (content : Content)
    (resources : List CrawlerResources) (incrDepth : Bool) (st : CrawlState)
    (h : st.currentDepth = c.CRAWLER_OPTIONS.maxDepth) :
    readResourceContent env c recur content resources incrDepth st = st := by
  induction resources with
  | nil => rw [readResourceContent]
  | cons r rs ih =>
    rw [readResourceContent, procPaths_stuck env c recur incrDepth _ st h, ih]

theorem scanPage_stuck (env : CrawlEnv) (c : Crawler) (fuel : Nat)
    (content : Content) (st : CrawlState)
    (h : st.currentDepth = c.CRAWLER_OPTIONS.maxDepth) :
    scanPage env c fuel content st = st := by
  cases fuel with
  | zero => rw [scanPage]
  | succ fuel =>
    rw [scanPage]
    split <;> simp [readResourceContent_stuck env c _ _ _ _ _ h]

/-! ## Helper facts about run -/

theorem run_eq (env : CrawlEnv) (c : Crawler) (fuel : Nat) :
    (isSuccessResponse (env.fetch c.URL) = false ∧ run env c fuel = (none, runStart c)) ∨
    (∃ r, env.fetch c.URL = some r ∧ isSuccessResponse (some r) = true ∧
      run env c fuel =
        (some (scanPage env c fuel r.data (runStart c)).scannedResourceInfo,
         scanPage env c fuel r.data (runStart c))) := by
  cases hf : env.fetch c.URL with
  | none =>
    refine Or.inl ⟨rfl, ?_⟩
    rw [run, hf]
    rfl
  | some r =>
    by_cases hs : isSuccessResponse (some r) = true
    · refine Or.inr ⟨r, rfl, hs, ?_⟩
      rw [run, hf]
      simp only [hs, if_true, reduceIte]
      rfl
    · refine Or.inl ⟨by simp [hs], ?_⟩
      rw [run, hf]
      simp only [hs, reduceIte, if_false]
      rfl

theorem run_output (env : CrawlEnv) (c : Crawler) (fuel : Nat)
    (l : List CrawlerDownloadInfo) (h : (run env c fuel).1 = some l) :
    l = (run env c fuel).2.scannedResourceInfo := by
  rcases run_eq env c fuel with ⟨_, heq⟩ | ⟨r, _, _, heq⟩
  · rw [heq] at h
    simp at h
  · rw [heq] at h ⊢
    simp at h
    simp [h]

/-! ## Claims -/

/-- Claim C1, counterexample.  With maxDepth 0 and includeAssets true the
seed page carries an img asset whose fetch would succeed, yet the crawl
collects nothing and fetches nothing beyond the seed: the depth gate
(currentDepth === maxDepth, that is 0 === 0) trips before the first asset
candidate, refuting the claim that asset collection on the seed page
still occurs. -/
theorem C1_counterexample :
    Crawler.build "http://h.com" (some { maxDepth := 0, includeAssets := true }) = some cA ∧
    cA.CRAWLER_OPTIONS.includeAssets = true ∧
    cA.CRAWLER_OPTIONS.maxDepth = 0 ∧
    envA.attrs 0 { selector := "img", attrName := "src" } = [some "/logo.png"] ∧
    isSuccessResponse (envA.fetch "http://h.com/logo.png") = true ∧
    (run envA cA 5).1 = some [] ∧
    (run envA cA 5).2.fetchLog = ["http://h.com"] := by
  decide

/-- Claim C1, amended.  For every crawl configured with maxDepth = 0, no
link is ever fetched below the seed page, and no asset is collected
either: the depth gate suppresses every candidate on the seed page, so
the only fetch is the seed fetch itself, the visited set stays empty and
the record list stays empty. -/
theorem C1_theorem (env : CrawlEnv) (c : Crawler) (fuel : Nat)
    (h : c.CRAWLER_OPTIONS.maxDepth = 0) :
    (run env c fuel).2.fetchLog = [c.URL] ∧
    (run env c fuel).2.scannedHosts = [] ∧
    (run env c fuel).2.scannedResourceInfo = [] ∧
    ∀ l, (run env c fuel).1 = some l → l = [] := by
  have hstuck : ∀ content, scanPage env c fuel content (runStart c) = runStart c :=
    fun content =>
      scanPage_stuck env c fuel content (runStart c) (by simp [runStart, initState, h])
  rcases run_eq env c fuel with ⟨_, heq⟩ | ⟨r, _, _, heq⟩
  · rw [heq]
    refine ⟨rfl, rfl, rfl, ?_⟩
    intro l hl
    simp at hl
  · rw [heq, hstuck]
    refine ⟨rfl, rfl, rfl, ?_⟩
    intro l hl
    simp [runStart, initState] at hl
    exact hl

/-- Claim C1, witness for the amended theorem at the concrete
maxDepth-0 crawl. -/
theorem C1_witness :
    (run envA cA 5).2.fetchLog = [cA.URL] ∧
    (run envA cA 5).2.scannedHosts = [] ∧
    (run envA cA 5).2.scannedResourceInfo = [] ∧
    ∀ l, (run envA cA 5).1 = some l → l = [] :=
  C1_theorem envA cA 5 (by decide)

/-- Claim C2, counterexample.  The driver fetches the seed without
admitting it to the visited set, so when the seed page links back to the
seed URL the traversal admits and fetches the same canonical URL string a
second time: the fetch log of the concrete crawl holds the seed URL
twice. -/
theorem C2_counterexample :
    Crawler.build "http://h.com/a" none = some cB ∧
    cleanURL cB (some "/a") = some cB.URL ∧
    (run envB cB 5).2.fetchLog = [cB.URL, cB.URL] ∧
    ¬ (run envB cB 5).2.fetchLog.Nodup := by
  decide

/-- Claim C2, amended.  Within the traversal a URL is fetched only right
after being newly admitted to the visited set, and admission happens at
most once per URL; the driver's seed fetch, however, bypasses admission.
Hence every URL other than the raw seed URL is fetched at most once, and
every URL (the seed included) at most twice. -/
theorem C2_theorem (env : CrawlEnv) (c : Crawler) (fuel : Nat) (u : String) :
    (run env c fuel).2.fetchLog.count u ≤ 2 ∧
    (u ≠ c.URL → (run env c fuel).2.fetchLog.count u ≤ 1) := by
  have hlog := run_fetchLog env c fuel
  have hnd : (run env c fuel).2.scannedHosts.Nodup := (run_inv env c fuel).1
  have hcnt : (run env c fuel).2.scannedHosts.count u ≤ 1 :=
    List.nodup_iff_count_le_one.mp hnd u
  rw [hlog]
  by_cases hu : u = c.URL
  · subst hu
    refine ⟨?_, fun hne => absurd rfl hne⟩
    rw [List.count_cons_self]
    omega
  · have hcc : List.count u (c.URL :: (run env c fuel).2.scannedHosts) =
        List.count u (run env c fuel).2.scannedHosts := List.count_cons_of_ne hu _
    exact ⟨by rw [hcc]; omega, fun _ => by rw [hcc]; omega⟩

/-- Claim C2, witness at a URL distinct from the seed. -/
theorem C2_witness : (run envB cB 5).2.fetchLog.count "http://other.test" ≤ 1 :=
  (C2_theorem envB cB 5 "http://other.test").2 (by decide)

/-- Claim C3: the resolved DownloadRecord list of any crawl contains no
two entries with the same resource string, because a record is only ever
appended for a URL freshly admitted to the duplicate-free visited set. -/
theorem C3_theorem (env : CrawlEnv) (c : Crawler) (fuel : Nat)
    (l : List CrawlerDownloadInfo) (h : (run env c fuel).1 = some l) :
    (l.map CrawlerDownloadInfo.resource).Nodup := by
  rw [run_output env c fuel l h]
  exact (run_inv env c fuel).2.1

/-- Claim C3, witness on the concrete crawl that records one resource. -/
theorem C3_witness :
    ((([{ resource := "http://h.com/a", size := 10 }]) : List CrawlerDownloadInfo).map
      CrawlerDownloadInfo.resource).Nodup :=
  C3_theorem envB cB 5 [{ resource := "http://h.com/a", size := 10 }] (by decide)

/-- Claim C4: the claim demands that a crawl whose seed fetch fails or
returns a non-2xx status resolve with an empty record list; the code
instead never resolves the promise (modelled as a none result), both on a
404 seed response and on a network error.  The spec itself flags this as
a defect of the implementation, so the code, not the claim, is wrong. -/
theorem C4_theorem :
    isSuccessResponse (envF.fetch "http://h.com") = false ∧
    (run envF cW 5).1 = none ∧
    envFerr.fetch "http://h.com" = none ∧
    (run envFerr cW 5).1 = none := by
  decide

/-- Claim C7: a selector match whose raw attribute value is exactly "/"
is skipped before canonicalization: processing the candidate list
continues with the remaining matches from an unchanged state, so the
candidate consumes no visited-set slot, no fetch and no record. -/
theorem C7_theorem (env : CrawlEnv) (c : Crawler)
    (recur : Content → CrawlState → CrawlState) (incrDepth : Bool)
    (rest : List (Option String)) (st : CrawlState) :
    procPaths env c recur incrDepth (some "/" :: rest) st =
    procPaths env c recur incrDepth rest st := by
  by_cases hg : st.currentDepth = c.CRAWLER_OPTIONS.maxDepth
  · rw [procPaths_stuck env c recur incrDepth _ st hg,
        procPaths_stuck env c recur incrDepth rest st hg]
  · rw [procPaths, if_neg hg]
    have : procStep env c recur incrDepth (some "/") st = st := by
      simp [procStep]
    rw [this]

/-- Claim C9: the depth counter never exceeds maxDepth.  It starts at 0,
and the traversal increments it only inside an iteration the gate let
through, i.e. from a value distinct from (hence below) maxDepth, so
scanPage preserves the bound and the whole crawl ends within it. -/
theorem C9_theorem (env : CrawlEnv) (c : Crawler) (fuel : Nat) (content : Content)
    (st : CrawlState) (h : st.currentDepth ≤ c.CRAWLER_OPTIONS.maxDepth) :
    (scanPage env c fuel content st).currentDepth ≤ c.CRAWLER_OPTIONS.maxDepth ∧
    initState.currentDepth = 0 ∧
    (run env c fuel).2.currentDepth ≤ c.CRAWLER_OPTIONS.maxDepth := by
  refine ⟨(scanPage_evolves env c fuel content st).2.2.2 h, rfl, ?_⟩
  exact (run_evolves env c fuel).2.2.2 (Nat.zero_le _)

/-- Claim C9, witness at the concrete crawl from depth 0. -/
theorem C9_witness :
    (scanPage envB cB 5 0 initState).currentDepth ≤ cB.CRAWLER_OPTIONS.maxDepth ∧
    initState.currentDepth = 0 ∧
    (run envB cB 5).2.currentDepth ≤ cB.CRAWLER_OPTIONS.maxDepth :=
  C9_theorem envB cB 5 0 initState (by decide)

/-- Claim C10: when an admitted candidate's fetch fails or returns a
non-2xx status, nothing is rolled back: processing continues on a state
that keeps the URL in the visited set (it therefore stays in the final
visited set and can never be fetched again) and keeps the depth
increment, while no record was appended for it. -/
theorem C10_theorem (env : CrawlEnv) (c : Crawler)
    (recur : Content → CrawlState → CrawlState)
    (hrec : ∀ content st0, Evolves c st0 (recur content st0))
    (incrDepth : Bool) (p : Option String) (rest : List (Option String))
    (st : CrawlState) (u : String)
    (hg : st.currentDepth ≠ c.CRAWLER_OPTIONS.maxDepth)
    (hp : p ≠ some "/")
    (hcu : cleanURL c p = some u)
    (hmem : u ∉ st.scannedHosts)
    (hfail : isSuccessResponse (env.fetch u) = false) :
    procPaths env c recur incrDepth (p :: rest) st =
      procPaths env c recur incrDepth rest
        { st with scannedHosts := st.scannedHosts ++ [u],
                  currentDepth := st.currentDepth + (if incrDepth then 1 else 0),
                  fetchLog := st.fetchLog ++ [u] } ∧
    u ∈ (procPaths env c recur incrDepth (p :: rest) st).scannedHosts := by
  have hstep : procStep env c recur incrDepth p st =
      { st with scannedHosts := st.scannedHosts ++ [u],
                currentDepth := st.currentDepth + (if incrDepth then 1 else 0),
                fetchLog := st.fetchLog ++ [u] } := by
    cases hf : env.fetch u with
    | none => simp only [procStep, if_neg hp, hcu, if_neg hmem, hf]
    | some resp =>
      rw [hf] at hfail
      have hns : ¬ (isSuccessResponse (some resp) = true) := by simp [hfail]
      simp only [procStep, if_neg hp, hcu, if_neg hmem, hf, if_neg hns]
  have heq : procPaths env c recur incrDepth (p :: rest) st =
      procPaths env c recur incrDepth rest
        { st with scannedHosts := st.scannedHosts ++ [u],
                  currentDepth := st.currentDepth + (if incrDepth then 1 else 0),
                  fetchLog := st.fetchLog ++ [u] } := by
    rw [procPaths, if_neg hg, hstep]
  refine ⟨heq, ?_⟩
  rw [heq]
  obtain ⟨⟨d, hh, _⟩, _, _, _⟩ := procPaths_evolves env c recur hrec incrDepth rest
    { st with scannedHosts := st.scannedHosts ++ [u],
              currentDepth := st.currentDepth + (if incrDepth then 1 else 0),
              fetchLog := st.fetchLog ++ [u] }
  rw [hh]
  simp

/-- Claim C10, witness: a concrete admitted candidate answering 404. -/
theorem C10_witness :
    (procPaths envE cW (fun _ st0 => st0) true [some "/bad"] initState =
      procPaths envE cW (fun _ st0 => st0) true []
        { initState with scannedHosts := initState.scannedHosts ++ ["http://h.com/bad"],
                         currentDepth := initState.currentDepth + (if true then 1 else 0),
                         fetchLog := initState.fetchLog ++ ["http://h.com/bad"] }) ∧
    "http://h.com/bad" ∈
      (procPaths envE cW (fun _ st0 => st0) true [some "/bad"] initState).scannedHosts :=
  C10_theorem envE cW (fun _ st0 => st0) (fun _ st0 => evolves_rfl cW st0) true
    (some "/bad") [] initState "http://h.com/bad"
    (by decide) (by decide) (by decide) (by decide) (by decide)

/-- Claim C6: canonicalization drops a path that is empty or exactly
"/", so "http://h.com" and "http://h.com/" canonicalize to the identical
string (for any crawler, since both inputs carry their own hostname). -/
theorem C6_theorem (c : Crawler) :
    cleanURL c (some "http://h.com") = cleanURL c (some "http://h.com/") ∧
    cleanURL c (some "http://h.com") = some "http://h.com" := ⟨rfl, rfl⟩

/-- Claim C8, counterexample.  A linked page answers 200 with a present,
numeric Content-Length header of "0" and a five-byte body; the recorded
size is 5 (the body length), not 0 as the claim requires, because the JS
disjunction treats the coerced 0 as falsy. -/
theorem C8_counterexample :
    envD.fetch "http://h.com/x" =
      some { status := 200, contentLength := some 0, data := 1, byteLength := 5 } ∧
    (run envD cW 5).1 = some [{ resource := "http://h.com/x", size := 5 }] := by
  decide

/-- Claim C8, amended.  For every fetch with status in [200, 300) the
traversal appends a DownloadRecord for the admitted URL whose size is the
numeric Content-Length when that header is present, numeric and nonzero,
and otherwise the byte length of the body (also when Content-Length is
"0"; the byte length itself covers the final fallback 0 since an empty
body has byte length 0). -/
theorem C8_theorem (env : CrawlEnv) (c : Crawler)
    (recur : Content → CrawlState → CrawlState)
    (hrec : ∀ content st0, Evolves c st0 (recur content st0))
    (incrDepth : Bool) (p : Option String) (rest : List (Option String))
    (st : CrawlState) (u : String) (resp : Response)
    (hg : st.currentDepth ≠ c.CRAWLER_OPTIONS.maxDepth)
    (hp : p ≠ some "/")
    (hcu : cleanURL c p = some u)
    (hmem : u ∉ st.scannedHosts)
    (hf : env.fetch u = some resp)
    (hs : isSuccessResponse (some resp) = true) :
    (∃ tail, (procPaths env c recur incrDepth (p :: rest) st).scannedResourceInfo =
      st.scannedResourceInfo ++ { resource := u, size := recordSize resp } :: tail) ∧
    (∀ n, resp.contentLength = some n → n ≠ 0 → recordSize resp = n) ∧
    ((resp.contentLength = none ∨ resp.contentLength = some 0) →
      recordSize resp = (resp.byteLength : Int)) := by
  refine ⟨?_, ?_, ?_⟩
  · rw [procPaths, if_neg hg]
    obtain ⟨_, ⟨ρ2, h2⟩, _, _⟩ :=
      procPaths_evolves env c recur hrec incrDepth rest (procStep env c recur incrDepth p st)
    rw [h2]
    have hps : ∃ ρ, (procStep env c recur incrDepth p st).scannedResourceInfo =
        st.scannedResourceInfo ++ { resource := u, size := recordSize resp } :: ρ := by
      simp only [procStep, if_neg hp, hcu, if_neg hmem, hf, if_pos hs]
      split
      · split
        · obtain ⟨_, ⟨ρ, hρ⟩, _, _⟩ := hrec resp.data _
          exact ⟨ρ, by rw [hρ]; simp⟩
        · exact ⟨[], by simp⟩
      · split
        · obtain ⟨_, ⟨ρ, hρ⟩, _, _⟩ := hrec resp.data _
          exact ⟨ρ, by rw [hρ]; simp⟩
        · exact ⟨[], by simp⟩
    obtain ⟨ρ1, h1⟩ := hps
    rw [h1]
    exact ⟨ρ1 ++ ρ2, by simp⟩
  · intro n hn hnz
    simp [recordSize, hn, hnz]
  · rintro (hn | hn) <;> simp only [recordSize, hn] <;>
      by_cases hb : resp.byteLength = 0 <;> simp [hb]

/-- Claim C8, witness at the concrete content-length-0 response. -/
theorem C8_witness :
    (∃ tail, (procPaths envD cW (fun _ st0 => st0) true [some "/x"] initState).scannedResourceInfo =
      initState.scannedResourceInfo ++
        { resource := "http://h.com/x",
          size := recordSize { status := 200, contentLength := some 0, data := 1, byteLength := 5 } } :: tail) ∧
    (∀ n, ({ status := 200, contentLength := some 0, data := 1, byteLength := 5 } : Response).contentLength = some n → n ≠ 0 →
      recordSize { status := 200, contentLength := some 0, data := 1, byteLength := 5 } = n) ∧
    ((({ status := 200, contentLength := some 0, data := 1, byteLength := 5 } : Response).contentLength = none ∨
      ({ status := 200, contentLength := some 0, data := 1, byteLength := 5 } : Response).contentLength = some 0) →
      recordSize { status := 200, contentLength := some 0, data := 1, byteLength := 5 } =
        (({ status := 200, contentLength := some 0, data := 1, byteLength := 5 } : Response).byteLength : Int)) :=
  C8_theorem envD cW (fun _ st0 => st0) (fun _ st0 => evolves_rfl cW st0) true
    (some "/x") [] initState "http://h.com/x"
    { status := 200, contentLength := some 0, data := 1, byteLength := 5 }
    (by decide) (by decide) (by decide) (by decide) (by decide) (by decide)

/-! ## Canonicalization idempotence layer -/

theorem charEq_of_toNat {a b : Char} (h : a.toNat = b.toNat) : a = b := by
  apply Char.eq_of_val_eq
  apply UInt32.eq_of_toBitVec_eq
  exact BitVec.eq_of_toNat_eq h

theorem toNat_ofNat_small {n : Nat} (h : n < 55296) : (Char.ofNat n).toNat = n := by
  rw [Char.ofNat, dif_pos (Or.inl h)]
  rfl

theorem lowerChar_toNat (c : Char) :
    (lowerChar c).toNat =
      if 65 ≤ c.toNat ∧ c.toNat ≤ 90 then c.toNat + 32 else c.toNat := by
  unfold lowerChar
  split
  · next h => exact toNat_ofNat_small (by omega)
  · rfl

theorem char_toNat_lt (c : Char) : c.toNat < 1114112 := by
  rcases c.valid with h | ⟨_, h⟩
  · exact Nat.lt_trans h (by omega)
  · exact h



theorem char_ne_iff_toNat {a b : Char} : a ≠ b ↔ a.toNat ≠ b.toNat := by
  constructor
  · intro h hn
    exact h (charEq_of_toNat hn)
  · intro hn h
    exact hn (congrArg Char.toNat h)

theorem lowerChar_cases (c : Char) :
    lowerChar c = c ∨
    ((lowerChar c).toNat = c.toNat + 32 ∧ 65 ≤ c.toNat ∧ c.toNat ≤ 90) := by
  by_cases h : 65 ≤ c.toNat ∧ c.toNat ≤ 90
  · right
    exact ⟨by rw [lowerChar_toNat, if_pos h], h.1, h.2⟩
  · left
    unfold lowerChar
    rw [if_neg h]

theorem lowerChar_ne_colon {c : Char} (h : c ≠ ':') : lowerChar c ≠ ':' := by
  rw [char_ne_iff_toNat] at h ⊢
  rcases lowerChar_cases c with hc | ⟨hc, h1, h2⟩
  · rw [hc]
    exact h
  · have : (':' : Char).toNat = 58 := rfl
    omega

end NodeWebCrawler
